import Mathlib

/-!
Verification of the StpCdrParser pipeline (src/main.py) against its
natural-language specification.

The embedding models the four core components of `CdrParser`:
the line repair decoder (`parse_file`, lines 87-92), the record assembler
(`parse_cdr_rec`), the filter engine (`filter_cdr`) and the export
projector (`save_to_file`).  Python dictionaries are embedded as
association lists, JSON values as the inductive `JVal` (the dump lines the
spec concerns use strings, integers and objects; JSON null, booleans,
floats and arrays do not occur in any claim and are outside the model).
Python exceptions are embedded as `Except PyErr`; `KeyError`,
`TypeError`, `ValueError` and `UnboundLocalError` are distinguished
because `filter_cdr` catches only `KeyError`.
-/

/-- A JSON value as it appears in the decoded dump lines. -/
inductive JVal where
  | str : String → JVal
  | num : Int → JVal
  | obj : List (String × JVal) → JVal

/-- A Python dict with string keys, as an association list. -/
abbrev Dict := List (String × JVal)

/-- One element of the per-line JSON array (a fragment). -/
abbrev Frag := Dict

/-- The Python exceptions the source can raise while processing a record. -/
inductive PyErr where
  | keyError
  | typeError
  | valueError
  | unboundLocal
deriving DecidableEq

/-- `d.get(k)` / `k in d` support: first binding of `k` in the dict. -/
def dictFind (d : Dict) (k : String) : Option JVal :=
  match d with
  | [] => none
  | (k1, v) :: rest => if k1 = k then some v else dictFind rest k

/-- `d[k]`: raises `KeyError` when the key is absent. -/
def dictGet (d : Dict) (k : String) : Except PyErr JVal :=
  match dictFind d k with
  | some v => Except.ok v
  | none => Except.error PyErr.keyError

/-- `k in d` as a Boolean. -/
def hasKeyB (d : Dict) (k : String) : Bool :=
  (dictFind d k).isSome

/-- `d[k] = v`: overwrite the existing binding in place, else append. -/
def dictSet (d : Dict) (k : String) (v : JVal) : Dict :=
  match d with
  | [] => [(k, v)]
  | (k1, v1) :: rest => if k1 = k then (k, v) :: rest else (k1, v1) :: dictSet rest k v

/-- `v[k]` on an arbitrary value: subscripting a non-dict with a string key
raises `TypeError` (as in Python for ints and strings). -/
def jGetKey (v : JVal) (k : String) : Except PyErr JVal :=
  match v with
  | JVal.obj d => dictGet d k
  | _ => Except.error PyErr.typeError

/-- Is `needle` a prefix of `hay`? (char lists) -/
def charsPre (needle hay : List Char) : Bool :=
  match needle, hay with
  | [], _ => true
  | _ :: _, [] => false
  | a :: t1, b :: t2 => a == b && charsPre t1 t2

/-- Python substring containment `needle in hay` on char lists. -/
def charsSub (needle hay : List Char) : Bool :=
  match hay with
  | [] => charsPre needle []
  | _ :: t => charsPre needle hay || charsSub needle t

/-- Python `x in v` for a string `x`: substring test on strings, key
membership on dicts, `TypeError` on ints. -/
def pyIn (x : String) (v : JVal) : Except PyErr Bool :=
  match v with
  | JVal.str s => Except.ok (charsSub x.data s.data)
  | JVal.obj d => Except.ok (hasKeyB d x)
  | JVal.num _ => Except.error PyErr.typeError

/-- Python `v == i` for an int `i` (no booleans or floats in the model). -/
def jEqInt (v : JVal) (i : Int) : Bool :=
  match v with
  | JVal.num n => n == i
  | _ => false

/-! ## Timestamp rendering

`parse_cdr_rec` stores
`datetime.fromtimestamp(float(cdr_part['TS'])).strftime('%Y.%m.%d %H:%M:%S.%f')`.
The conversion is modelled at UTC (the source uses the local timezone;
no claim inspects the rendered text).  `float` accepts plain decimal
strings; sub-microsecond digits are truncated and the exotic float
grammar (exponents, signs, whitespace) is outside the model, which no
claim exercises. -/

/-- Digits of a char list as a natural number. -/
def digitsToNat (ds : List Char) : Nat :=
  ds.foldl (fun a c => a * 10 + (c.toNat - 48)) 0

/-- Python `float(s)` for plain decimal strings, as (seconds, microseconds). -/
def parsePyFloat (s : String) : Option (Int × Nat) :=
  let cs := s.data
  if !cs.isEmpty && cs.all Char.isDigit then some (Int.ofNat (digitsToNat cs), 0)
  else
    match cs.takeWhile Char.isDigit, cs.dropWhile Char.isDigit with
    | d1, '.' :: d2 =>
      if (!d1.isEmpty || !d2.isEmpty) && d2.all Char.isDigit then
        some (Int.ofNat (digitsToNat d1), digitsToNat ((d2 ++ List.replicate 6 '0').take 6))
      else none
    | _, _ => none

/-- Left-pad a natural number with zeros to the given width. -/
def padNum (w : Nat) (n : Nat) : String :=
  let s := toString n
  String.mk (List.replicate (w - s.length) '0') ++ s

/-- Civil date from days since 1970-01-01 (proleptic Gregorian). -/
def civilFromDays (z0 : Int) : Int × Int × Int :=
  let z := z0 + 719468
  let era := Int.fdiv z 146097
  let doe := z - era * 146097
  let yoe := Int.fdiv (doe - Int.fdiv doe 1460 + Int.fdiv doe 36524 - Int.fdiv doe 146096) 365
  let y := yoe + era * 400
  let doy := doe - (365 * yoe + Int.fdiv yoe 4 - Int.fdiv yoe 100)
  let mp := Int.fdiv (5 * doy + 2) 153
  let d := doy - Int.fdiv (153 * mp + 2) 5 + 1
  let m := mp + (if mp < 10 then 3 else -9)
  (if m <= 2 then y + 1 else y, m, d)

/-- `datetime.fromtimestamp(sec).strftime('%Y.%m.%d %H:%M:%S.%f')` at UTC. -/
def epochFormat (sec : Int) (micro : Nat) : String :=
  let days := Int.fdiv sec 86400
  let sod := (Int.emod sec 86400).toNat
  let c := civilFromDays days
  padNum 4 c.1.toNat ++ "." ++ padNum 2 c.2.1.toNat ++ "." ++ padNum 2 c.2.2.toNat ++ " " ++
    padNum 2 (sod / 3600) ++ ":" ++ padNum 2 (sod % 3600 / 60) ++ ":" ++ padNum 2 (sod % 60) ++
    "." ++ padNum 6 micro

/-- `datetime.fromtimestamp(float(v)).strftime(...)` on a JSON value:
`TypeError` for a dict, `ValueError` for a non-numeric string. -/
def pyFloatFmt (v : JVal) : Except PyErr String :=
  match v with
  | JVal.num n => Except.ok (epochFormat n 0)
  | JVal.str s =>
    match parsePyFloat s with
    | some p => Except.ok (epochFormat p.1 p.2)
    | none => Except.error PyErr.valueError
  | JVal.obj _ => Except.error PyErr.typeError

/-! ## Line Repair Decoder (`parse_file`, lines 87-92) -/

/-- `cdr_record.replace('."', '.')`: left-to-right non-overlapping
replacement of the two-character sequence. -/
def fixDotQuote : List Char → List Char
  | [] => []
  | '.' :: '"' :: rest => '.' :: fixDotQuote rest
  | c :: rest => c :: fixDotQuote rest

/-- String version of the first rewrite. -/
def pyReplaceDotQuote (s : String) : String :=
  String.mk (fixDotQuote s.data)

/-- Python 2 `\w` (ASCII word character). -/
def isWordChar (c : Char) : Bool :=
  c.isAlphanum || c == '_'

/-- Try to match the regex `(:"\d*\.\d*\.\w*)""` at the head of the list.
Returns the text of group 1 and the remainder after the match.  The
greedy runs need no backtracking: `\d*` is followed by a literal dot and
`\w*` by a quote, neither of which the runs can consume. -/
def tryMatchGt (l : List Char) : Option (List Char × List Char) :=
  match l with
  | ':' :: '"' :: rest =>
    let d1 := rest.takeWhile Char.isDigit
    match rest.dropWhile Char.isDigit with
    | '.' :: r2 =>
      let d2 := r2.takeWhile Char.isDigit
      match r2.dropWhile Char.isDigit with
      | '.' :: r4 =>
        let w := r4.takeWhile isWordChar
        match r4.dropWhile isWordChar with
        | '"' :: '"' :: r6 =>
          some (':' :: '"' :: (d1 ++ '.' :: (d2 ++ '.' :: w)), r6)
        | _ => none
      | _ => none
    | _ => none
  | _ => none

/-- Dropping while a predicate holds never lengthens a list. -/
theorem length_dropWhile_le_local {α : Type} (p : α → Bool) (l : List α) :
    (l.dropWhile p).length ≤ l.length := by
  induction l with
  | nil => simp [List.dropWhile]
  | cons a t ih =>
    cases hpa : p a
    · simp [List.dropWhile_cons, hpa]
    · simp only [List.dropWhile_cons, hpa, if_pos]
      exact Nat.le_succ_of_le ih

/-- A successful match consumes at least one character. -/
theorem tryMatchGt_shrinks (l g r : List Char) (h : tryMatchGt l = some (g, r)) :
    r.length < l.length := by
  unfold tryMatchGt at h
  split at h
  case h_2 => exact absurd h (by simp)
  rename_i rest
  split at h
  case h_2 => exact absurd h (by simp)
  rename_i r2 heq1
  split at h
  case h_2 => exact absurd h (by simp)
  rename_i r4 heq2
  split at h
  case h_2 => exact absurd h (by simp)
  rename_i r6 heq3
  have hr : r6 = r := by
    have h2 := (Option.some.injEq _ _).mp h
    simpa using congrArg Prod.snd h2
  have hlr : r6.length = r.length := congrArg List.length hr
  have l1 : r6.length + 2 ≤ r4.length := by
    have := length_dropWhile_le_local isWordChar r4
    rw [heq3] at this
    simpa using this
  have l2 : r4.length + 1 ≤ r2.length := by
    have := length_dropWhile_le_local Char.isDigit r2
    rw [heq2] at this
    simpa using this
  have l3 : r2.length + 1 ≤ rest.length := by
    have := length_dropWhile_le_local Char.isDigit rest
    rw [heq1] at this
    simpa using this
  simp only [List.length_cons]
  omega

/-- `re.sub(r'(:"\d*\.\d*\.\w*)""', r'\g<1>"', s)` on char lists:
leftmost non-overlapping matches, each replaced by group 1 plus a single
quote. -/
def subGtChars (l : List Char) : List Char :=
  match h : tryMatchGt l with
  | some gr => gr.1 ++ '"' :: subGtChars gr.2
  | none =>
    match l with
    | [] => []
    | c :: rest => c :: subGtChars rest
termination_by l.length
decreasing_by
  · exact tryMatchGt_shrinks l gr.1 gr.2 h
  · simp

/-- String version of the second rewrite. -/
def pySubGt (s : String) : String :=
  String.mk (subGtChars s.data)

/-- The per-line decode of `parse_file` (lines 87-92): try a JSON parse;
on failure apply the two rewrites in order and parse once more.  The
JSON loader itself is the Python standard library, taken as a parameter;
`none` is a raised `ValueError`. -/
def decode_line (loads : String → Option JVal) (line : String) : Option JVal :=
  match loads line with
  | some v => some v
  | none => loads (pySubGt (pyReplaceDotQuote line))

/-! ## Record Assembler (`parse_cdr_rec`, lines 142-158) -/

/-- The seed timestamp of a boundary fragment:
`datetime.fromtimestamp(float(cdr_part['TS'])).strftime(...)`. -/
def seedTs (p : Frag) : Except PyErr String :=
  match dictGet p "TS" with
  | Except.error e => Except.error e
  | Except.ok v => pyFloatFmt v

/-- Does the fragment carry a `DIR` key?  (`cdr_part.get('DIR')` is not
`None`; JSON null is outside the model, so presence suffices.) -/
def hasDirB (p : Frag) : Bool :=
  (dictFind p "DIR").isSome

/-- The `elif` chain of `parse_cdr_rec`: the first of `MTP`, `SCCP`,
`TCAP`, `SMS` present in the fragment, if any. -/
def layerKey (p : Frag) : Option String :=
  if hasKeyB p "MTP" then some "MTP"
  else if hasKeyB p "SCCP" then some "SCCP"
  else if hasKeyB p "TCAP" then some "TCAP"
  else if hasKeyB p "SMS" then some "SMS"
  else none

/-- `rec[k] = v` where `rec` aliases the last appended record: update the
last element, or raise `UnboundLocalError` when no record was started. -/
def setLast : List Dict → String → JVal → Except PyErr (List Dict)
  | [], _, _ => Except.error PyErr.unboundLocal
  | [d], k, v => Except.ok [dictSet d k v]
  | d :: e :: rest, k, v =>
    match setLast (e :: rest) k v with
    | Except.error err => Except.error err
    | Except.ok r => Except.ok (d :: r)

/-- The loop body of `parse_cdr_rec`, with the records list as state.
A boundary fragment appends a fresh `TS`/`DIR` record; a layer fragment
reads its value and stores it on the current (last) record. -/
def parseLoop : List Frag → List Dict → Except PyErr (List Dict)
  | [], acc => Except.ok acc
  | p :: ps, acc =>
    match dictFind p "DIR" with
    | some dv =>
      match seedTs p with
      | Except.error e => Except.error e
      | Except.ok s => parseLoop ps (acc ++ [[("TS", JVal.str s), ("DIR", dv)]])
    | none =>
      match layerKey p with
      | none => parseLoop ps acc
      | some k =>
        match dictGet p k with
        | Except.error e => Except.error e
        | Except.ok v =>
          match setLast acc k v with
          | Except.error e => Except.error e
          | Except.ok acc2 => parseLoop ps acc2

/-- `CdrParser.parse_cdr_rec`. -/
def parse_cdr_rec (frags : List Frag) : Except PyErr (List Dict) :=
  parseLoop frags []

/-! ## Filter Engine (`filter_cdr`, lines 122-140) -/

/-- The four optional criteria (argparse gives `None` or a list). -/
structure FilterCriteria where
  link : Option (List Int)
  map_code : Option (List Int)
  dst_gt : Option (List String)
  src_gt : Option (List String)

/-- Python truthiness of an optional int list. -/
def truthyI : Option (List Int) → Bool
  | none => false
  | some l => !l.isEmpty

/-- Python truthiness of an optional string list. -/
def truthyS : Option (List String) → Bool
  | none => false
  | some l => !l.isEmpty

/-- `if self.link: link_filter = cdr['GENERAL_PART']['LINK'] in self.link`. -/
def evalLink (c : Option (List Int)) (cdr : Dict) : Except PyErr Bool :=
  match c with
  | none => Except.ok true
  | some l =>
    if l.isEmpty then Except.ok true
    else
      match dictGet cdr "GENERAL_PART" with
      | Except.error e => Except.error e
      | Except.ok gp =>
        match jGetKey gp "LINK" with
        | Except.error e => Except.error e
        | Except.ok lv => Except.ok (l.any (fun i => jEqInt lv i))

/-- `if self.map_code: map_code_filter = cdr['TCAP']['MAP'] in self.map_code`. -/
def evalMapCode (c : Option (List Int)) (cdr : Dict) : Except PyErr Bool :=
  match c with
  | none => Except.ok true
  | some l =>
    if l.isEmpty then Except.ok true
    else
      match dictGet cdr "TCAP" with
      | Except.error e => Except.error e
      | Except.ok tc =>
        match jGetKey tc "MAP" with
        | Except.error e => Except.error e
        | Except.ok mv => Except.ok (l.any (fun i => jEqInt mv i))

/-- `any(map(lambda x: x in v, xs))` with per-element errors propagating. -/
def anyContains (xs : List String) (v : JVal) : Except PyErr Bool :=
  match xs with
  | [] => Except.ok false
  | x :: rest =>
    match pyIn x v with
    | Except.error e => Except.error e
    | Except.ok true => Except.ok true
    | Except.ok false => anyContains rest v

/-- `if self.dst_gt: dst_gt_filter = any(map(lambda x: x in cdr['SCCP']['B'], self.dst_gt))`.
The guarded list is non-empty, so hoisting the pure lookup out of the
lambda is observationally identical. -/
def evalDstGt (c : Option (List String)) (cdr : Dict) : Except PyErr Bool :=
  match c with
  | none => Except.ok true
  | some l =>
    if l.isEmpty then Except.ok true
    else
      match dictGet cdr "SCCP" with
      | Except.error e => Except.error e
      | Except.ok sc =>
        match jGetKey sc "B" with
        | Except.error e => Except.error e
        | Except.ok bv => anyContains l bv

/-- `if self.src_gt: src_gt_filter = any(map(lambda x: x in cdr['SCCP']['A'], self.src_gt))`. -/
def evalSrcGt (c : Option (List String)) (cdr : Dict) : Except PyErr Bool :=
  match c with
  | none => Except.ok true
  | some l =>
    if l.isEmpty then Except.ok true
    else
      match dictGet cdr "SCCP" with
      | Except.error e => Except.error e
      | Except.ok sc =>
        match jGetKey sc "A" with
        | Except.error e => Except.error e
        | Except.ok av => anyContains l av

/-- The `try` body of `filter_cdr`: the four criteria evaluated in
source order; the first exception aborts the block. -/
def tryFilters (c : FilterCriteria) (cdr : Dict) :
    Except PyErr (Bool × Bool × Bool × Bool) :=
  match evalLink c.link cdr with
  | Except.error e => Except.error e
  | Except.ok lf =>
    match evalMapCode c.map_code cdr with
    | Except.error e => Except.error e
    | Except.ok mf =>
      match evalDstGt c.dst_gt cdr with
      | Except.error e => Except.error e
      | Except.ok df =>
        match evalSrcGt c.src_gt cdr with
        | Except.error e => Except.error e
        | Except.ok sf => Except.ok (lf, mf, df, sf)

/-- `CdrParser.filter_cdr`.  Note the early return tests the truthiness
of `link`, `map_code` and `dst_gt` only — exactly as in the source —
and that only `KeyError` is caught. -/
def filter_cdr (c : FilterCriteria) (cdr : Dict) : Except PyErr Bool :=
  if !(truthyI c.link || truthyI c.map_code || truthyS c.dst_gt) then Except.ok true
  else
    match tryFilters c cdr with
    | Except.ok f => Except.ok (f.1 && f.2.1 && f.2.2.1 && f.2.2.2)
    | Except.error PyErr.keyError => Except.ok false
    | Except.error e => Except.error e

/-! ## Export Projector (`save_to_file`, lines 108-120) -/

/-- The nine-field row of one CDR, in the order the source reads them;
any `KeyError` aborts the row. -/
def projectRow (cdr : Dict) : Except PyErr (List JVal) :=
  match dictGet cdr "TS" with
  | Except.error e => Except.error e
  | Except.ok ts =>
    match dictGet cdr "TCAP" with
    | Except.error e => Except.error e
    | Except.ok tc =>
      match jGetKey tc "MAP", jGetKey tc "DST", jGetKey tc "SRC" with
      | Except.ok m, Except.ok dd, Except.ok sr =>
        match dictGet cdr "SCCP" with
        | Except.error e => Except.error e
        | Except.ok sc =>
          match jGetKey sc "A", jGetKey sc "B" with
          | Except.ok a, Except.ok b =>
            match dictGet cdr "SMS" with
            | Except.error e => Except.error e
            | Except.ok sm =>
              match jGetKey sm "A", jGetKey sm "B", jGetKey sm "IMSI_A" with
              | Except.ok sa, Except.ok sb, Except.ok im =>
                Except.ok [ts, m, dd, sr, a, b, sa, sb, im]
              | Except.error e, _, _ => Except.error e
              | _, Except.error e, _ => Except.error e
              | _, _, Except.error e => Except.error e
          | Except.error e, _ => Except.error e
          | _, Except.error e => Except.error e
      | Except.error e, _, _ => Except.error e
      | _, Except.error e, _ => Except.error e
      | _, _, Except.error e => Except.error e

/-- `CdrParser.save_to_file`, modelled as the list of emitted data rows
(the CSV header and file handling are external collaborators): a row per
CDR, a `KeyError` silently dropping the record, any other error fatal. -/
def save_to_file : List Dict → Except PyErr (List (List JVal))
  | [] => Except.ok []
  | c :: cs =>
    match projectRow c with
    | Except.ok r =>
      match save_to_file cs with
      | Except.error e => Except.error e
      | Except.ok rs => Except.ok (r :: rs)
    | Except.error PyErr.keyError => save_to_file cs
    | Except.error e => Except.error e

/-! ## Concrete inputs used by the claims -/

/-- The five-fragment example array from the specification. -/
def exFrags : List Frag :=
  [[("DIR", JVal.num 1), ("TS", JVal.num 1000000000)],
   [("SCCP", JVal.obj [("A", JVal.str "1"), ("B", JVal.str "2")])],
   [("TCAP", JVal.obj [("MAP", JVal.num 5), ("SRC", JVal.str "x"), ("DST", JVal.str "y")])],
   [("DIR", JVal.num 2), ("TS", JVal.num 1000000100)],
   [("SMS", JVal.obj [("A", JVal.str "3"), ("B", JVal.str "4"), ("IMSI_A", JVal.str "5")])]]

/-- The first CDR the assembler actually produces for `exFrags`. -/
def exCdr1 : Dict :=
  [("TS", JVal.str "2001.09.09 01:46:40.000000"), ("DIR", JVal.num 1),
   ("SCCP", JVal.obj [("A", JVal.str "1"), ("B", JVal.str "2")]),
   ("TCAP", JVal.obj [("MAP", JVal.num 5), ("SRC", JVal.str "x"), ("DST", JVal.str "y")])]

/-- The second CDR the assembler actually produces for `exFrags`. -/
def exCdr2 : Dict :=
  [("TS", JVal.str "2001.09.09 01:48:20.000000"), ("DIR", JVal.num 2),
   ("SMS", JVal.obj [("A", JVal.str "3"), ("B", JVal.str "4"), ("IMSI_A", JVal.str "5")])]

/-- Criteria with only `src_gt` configured, substring "9". -/
def critC1 : FilterCriteria := ⟨none, none, none, some ["9"]⟩

/-- A CDR whose `SCCP.A` is "1", so no configured substring occurs in it. -/
def cdrC1 : Dict :=
  [("TS", JVal.str "t"), ("DIR", JVal.num 1),
   ("SCCP", JVal.obj [("A", JVal.str "1"), ("B", JVal.str "2")])]

/-- Criteria with only `src_gt` configured, substring "7". -/
def critC5 : FilterCriteria := ⟨none, none, none, some ["7"]⟩

/-- A CDR with no `SCCP` key at all: the nested field `SCCP.A` that the
active `src_gt` criterion needs is missing. -/
def cdrC5 : Dict := [("TS", JVal.str "t"), ("DIR", JVal.num 1)]

/-- Claim C1 (refuted, code bug): the spec says the engine accepts
unconditionally only when all four criteria are absent, and that a
configured `src_gt` with no substring match in `CDR.SCCP.A` rejects the
record.  The source's early return tests only `link`, `map_code` and
`dst_gt` (line 123), so with only `src_gt` configured the record is
accepted without any evaluation: the code returns `True` on this input
although the claim requires rejection. -/
theorem filter_c1_only_src_gt_accepts : filter_cdr critC1 cdrC1 = Except.ok true := rfl

/-- Claim C5 (refuted, code bug): with only `src_gt` configured the
required nested field `SCCP.A` is missing, so the claim requires
rejection; the source's early return (which omits `src_gt`) accepts the
record without evaluating anything. -/
theorem filter_c5_missing_field_accepts : filter_cdr critC5 cdrC5 = Except.ok true := rfl

/-- Claim C2 (counterexample): on the spec's own five-fragment array the
second CDR does carry an `SMS` key, contradicting the claim that it has
only `DIR` and `TS`.  The assembler appends the record dict and then
keeps mutating it, so the trailing SMS fragment lands on the second CDR. -/
theorem assembler_c2_counterexample :
    (parse_cdr_rec exFrags).toOption.map (fun l => l.map (fun (d : Dict) => hasKeyB d "SMS"))
      = some [false, true] := rfl

/-- Claim C2 as amended: the assembler yields exactly two CDRs; the
first has `SCCP` and `TCAP` set and no `SMS`; the second has `DIR`, `TS`
and `SMS` set (and no `SCCP` or `TCAP`). -/
theorem assembler_c2_amended : parse_cdr_rec exFrags = Except.ok [exCdr1, exCdr2] := rfl

/-- Claim C6 (confirmed): when the initial JSON parse of a line fails,
the decoder applies exactly the two rewrites, in order (`."` → `.`
first, then the doubled-GT-quote collapse), and retries the parse
exactly once; the right-hand side being `none` is the retried failure
propagating, and the shape of `decode_line` admits no third attempt. -/
theorem decoder_c6_repair_once (loads : String → Option JVal) (line : String)
    (h : loads line = none) :
    decode_line loads line = loads (pySubGt (pyReplaceDotQuote line)) := by
  simp only [decode_line, h]

/-- A toy stand-in for `json.loads` that accepts exactly one line. -/
def loadsC6 : String → Option JVal := fun s => if s = "[0]" then some (JVal.obj []) else none

theorem decoder_c6_witness :
    decode_line loadsC6 ":\"1.2.a\"\"" = loadsC6 (pySubGt (pyReplaceDotQuote ":\"1.2.a\"\"")) :=
  decoder_c6_repair_once loadsC6 ":\"1.2.a\"\"" rfl

/-- Claim C7 (confirmed): a line whose initial parse succeeds is
returned as parsed; the repair path is never taken and the line is not
altered. -/
theorem decoder_c7_wellformed (loads : String → Option JVal) (line : String) (v : JVal)
    (h : loads line = some v) : decode_line loads line = some v := by
  simp only [decode_line, h]

/-- A toy stand-in for `json.loads` that accepts exactly one line. -/
def loadsC7 : String → Option JVal := fun s => if s = "[7]" then some (JVal.num 7) else none

theorem decoder_c7_witness : decode_line loadsC7 "[7]" = some (JVal.num 7) :=
  decoder_c7_wellformed loadsC7 "[7]" (JVal.num 7) rfl

/-! ## Assembler lemmas -/

/-- A fragment without a `DIR` key finds none. -/
theorem hasDirB_false_find (q : Frag) (h : hasDirB q = false) : dictFind q "DIR" = none := by
  cases hq : dictFind q "DIR" with
  | none => rfl
  | some v => rw [hasDirB, hq] at h; simp at h

/-- The layer key returned by the `elif` chain is present in the fragment. -/
theorem layerKey_find (p : Frag) (k : String) (h : layerKey p = some k) :
    ∃ v, dictFind p k = some v := by
  unfold layerKey at h
  split_ifs at h with h1 h2 h3 h4 <;>
    simp_all [hasKeyB, Option.isSome_iff_exists]

/-- The layer key is one of the four protocol keys. -/
theorem layerKey_cases (p : Frag) (k : String) (h : layerKey p = some k) :
    k = "MTP" ∨ k = "SCCP" ∨ k = "TCAP" ∨ k = "SMS" := by
  unfold layerKey at h
  split_ifs at h <;> simp_all

/-- Layer fragments preceding every boundary fragment make the loop
raise `UnboundLocalError`: there is never a current record to mutate. -/
theorem parseLoop_pre_boundary (p : Frag) (l2 : List Frag)
    (h2 : hasDirB p = false) (h3 : (layerKey p).isSome = true) :
    ∀ l1 : List Frag, (∀ q ∈ l1, hasDirB q = false) →
      parseLoop (l1 ++ p :: l2) [] = Except.error PyErr.unboundLocal := by
  intro l1
  induction l1 with
  | nil =>
    intro _
    obtain ⟨k, hk⟩ := Option.isSome_iff_exists.mp h3
    obtain ⟨v, hv⟩ := layerKey_find p k hk
    simp only [List.nil_append, parseLoop, hasDirB_false_find p h2, hk, dictGet, hv, setLast]
  | cons q t ih =>
    intro hq
    have hqd : hasDirB q = false := hq q (List.mem_cons_self q t)
    have ht : ∀ r ∈ t, hasDirB r = false := fun r hr => hq r (List.mem_cons_of_mem q hr)
    cases hlk : layerKey q with
    | none =>
      simp only [List.cons_append, parseLoop, hasDirB_false_find q hqd, hlk]
      exact ih ht
    | some k =>
      obtain ⟨v, hv⟩ := layerKey_find q k hlk
      simp only [List.cons_append, parseLoop, hasDirB_false_find q hqd, hlk, dictGet, hv,
        setLast]

/-- Claim C4 (confirmed): if a fragment lacking `DIR` but carrying one
of the four layer keys precedes every `DIR`-carrying fragment, the
assembler raises `UnboundLocalError` instead of skipping it. -/
theorem assembler_c4_unbound (l1 l2 : List Frag) (p : Frag)
    (h1 : ∀ q ∈ l1, hasDirB q = false)
    (h2 : hasDirB p = false)
    (h3 : (layerKey p).isSome = true) :
    parse_cdr_rec (l1 ++ p :: l2) = Except.error PyErr.unboundLocal := by
  unfold parse_cdr_rec
  exact parseLoop_pre_boundary p l2 h2 h3 l1 h1

/-- A lone SCCP fragment before any boundary fragment. -/
def fragC4 : Frag := [("SCCP", JVal.obj [("A", JVal.str "1")])]

theorem assembler_c4_witness :
    parse_cdr_rec ([] ++ fragC4 :: []) = Except.error PyErr.unboundLocal :=
  assembler_c4_unbound [] [] fragC4 (by simp) rfl rfl

/-! ## Filter lemmas: empty criteria and the link criterion -/

/-- Replace an empty int-list criterion by an absent one. -/
def nzI : Option (List Int) → Option (List Int)
  | none => none
  | some l => if l.isEmpty then none else some l

/-- Replace an empty string-list criterion by an absent one. -/
def nzS : Option (List String) → Option (List String)
  | none => none
  | some l => if l.isEmpty then none else some l

/-- Criteria with every empty collection replaced by an absent criterion. -/
def normalizeCriteria (c : FilterCriteria) : FilterCriteria :=
  ⟨nzI c.link, nzI c.map_code, nzS c.dst_gt, nzS c.src_gt⟩

theorem truthyI_nzI (o : Option (List Int)) : truthyI (nzI o) = truthyI o := by
  cases o with
  | none => rfl
  | some l => cases l <;> rfl

theorem truthyS_nzS (o : Option (List String)) : truthyS (nzS o) = truthyS o := by
  cases o with
  | none => rfl
  | some l => cases l <;> rfl

theorem evalLink_nzI (o : Option (List Int)) (cdr : Dict) :
    evalLink (nzI o) cdr = evalLink o cdr := by
  cases o with
  | none => rfl
  | some l => cases l <;> rfl

theorem evalMapCode_nzI (o : Option (List Int)) (cdr : Dict) :
    evalMapCode (nzI o) cdr = evalMapCode o cdr := by
  cases o with
  | none => rfl
  | some l => cases l <;> rfl

theorem evalDstGt_nzS (o : Option (List String)) (cdr : Dict) :
    evalDstGt (nzS o) cdr = evalDstGt o cdr := by
  cases o with
  | none => rfl
  | some l => cases l <;> rfl

theorem evalSrcGt_nzS (o : Option (List String)) (cdr : Dict) :
    evalSrcGt (nzS o) cdr = evalSrcGt o cdr := by
  cases o with
  | none => rfl
  | some l => cases l <;> rfl

theorem tryFilters_normalize (c : FilterCriteria) (cdr : Dict) :
    tryFilters (normalizeCriteria c) cdr = tryFilters c cdr := by
  unfold tryFilters normalizeCriteria
  rw [evalLink_nzI, evalMapCode_nzI, evalDstGt_nzS, evalSrcGt_nzS]

/-- Claim C10 (confirmed): an empty collection behaves exactly like an
absent criterion.  First part: with all four criteria absent or empty
the record is accepted.  Second part: replacing every empty criterion by
an absent one never changes the decision, so an individual empty
criterion is skipped rather than rejecting every record. -/
theorem filter_c10_empty_as_absent (c : FilterCriteria) (cdr : Dict) :
    ((!(truthyI c.link || truthyI c.map_code || truthyS c.dst_gt || truthyS c.src_gt)) = true →
      filter_cdr c cdr = Except.ok true) ∧
    filter_cdr (normalizeCriteria c) cdr = filter_cdr c cdr := by
  constructor
  · intro h
    simp only [Bool.not_eq_true', Bool.or_eq_false_iff] at h
    obtain ⟨⟨⟨h1, h2⟩, h3⟩, _⟩ := h
    simp [filter_cdr, h1, h2, h3]
  · unfold filter_cdr
    rw [tryFilters_normalize]
    simp only [normalizeCriteria, truthyI_nzI, truthyS_nzS]

/-- Criteria supplied as empty collections (as `--link`, `--dst-gt`,
`--src-gt` with zero arguments would produce). -/
def critC10 : FilterCriteria := ⟨some [], none, some [], some []⟩

/-- A CDR that no configured member could ever match, were the empty
criteria treated as active. -/
def cdrC10 : Dict := [("TS", JVal.str "t"), ("DIR", JVal.num 2)]

theorem filter_c10_witness : filter_cdr critC10 cdrC10 = Except.ok true :=
  (filter_c10_empty_as_absent critC10 cdrC10).1 (by decide)

/-- Membership after a `setLast` update: every record either was in the
list or is the updated image of one. -/
theorem setLast_mem (l : List Dict) (k : String) (v : JVal) :
    ∀ r : List Dict, setLast l k v = Except.ok r →
      ∀ d ∈ r, d ∈ l ∨ ∃ d0 ∈ l, d = dictSet d0 k v := by
  induction l with
  | nil => intro r h; cases h
  | cons a rest ih =>
    intro r h d hd
    cases rest with
    | nil =>
      simp only [setLast] at h
      cases h
      simp only [List.mem_singleton] at hd
      exact Or.inr ⟨a, List.mem_singleton.mpr rfl, hd⟩
    | cons b rest2 =>
      simp only [setLast] at h
      cases hs : setLast (b :: rest2) k v with
      | error e => rw [hs] at h; cases h
      | ok r2 =>
        rw [hs] at h
        cases h
        rcases List.mem_cons.mp hd with hda | hdr2
        · exact Or.inl (by simp [hda])
        · rcases ih r2 hs d hdr2 with hin | ⟨d0, hd0, hde⟩
          · exact Or.inl (List.mem_cons_of_mem a hin)
          · exact Or.inr ⟨d0, List.mem_cons_of_mem a hd0, hde⟩

/-- Updating key `k` leaves the bindings of other keys unchanged. -/
theorem dictFind_dictSet_ne (d : Dict) (k k2 : String) (v : JVal) (h : ¬ k = k2) :
    dictFind (dictSet d k v) k2 = dictFind d k2 := by
  induction d with
  | nil => simp [dictSet, dictFind, h]
  | cons a rest ih =>
    obtain ⟨k1, v1⟩ := a
    by_cases e : k1 = k
    · subst e
      simp [dictSet, dictFind, h]
    · simp only [dictSet, if_neg e, dictFind]
      by_cases e2 : k1 = k2
      · simp [e2]
      · simp [e2, ih]

/-- No record the assembler builds ever carries a `GENERAL_PART` key:
seeds carry only `TS` and `DIR`, and updates only the four layer keys. -/
theorem parseLoop_no_general_part (frags : List Frag) :
    ∀ (acc res : List Dict), parseLoop frags acc = Except.ok res →
      (∀ d ∈ acc, hasKeyB d "GENERAL_PART" = false) →
      ∀ d ∈ res, hasKeyB d "GENERAL_PART" = false := by
  induction frags with
  | nil =>
    intro acc res h hacc
    simp only [parseLoop] at h
    cases h
    exact hacc
  | cons p ps ih =>
    intro acc res h hacc
    unfold parseLoop at h
    cases hdir : dictFind p "DIR" with
    | some dv =>
      rw [hdir] at h
      cases hts : seedTs p with
      | error e => rw [hts] at h; cases h
      | ok s =>
        rw [hts] at h
        refine ih _ res h ?_
        intro d hd
        rcases List.mem_append.mp hd with hda | hds
        · exact hacc d hda
        · simp only [List.mem_singleton] at hds
          subst hds
          simp [hasKeyB, dictFind]
    | none =>
      rw [hdir] at h
      cases hlk : layerKey p with
      | none =>
        rw [hlk] at h
        exact ih acc res h hacc
      | some k =>
        rw [hlk] at h
        obtain ⟨v, hv⟩ := layerKey_find p k hlk
        simp only [dictGet, hv] at h
        cases hsl : setLast acc k v with
        | error e => rw [hsl] at h; cases h
        | ok acc2 =>
          rw [hsl] at h
          refine ih acc2 res h ?_
          intro d hd
          rcases setLast_mem acc k v acc2 hsl d hd with hin | ⟨d0, hd0, hde⟩
          · exact hacc d hin
          · subst hde
            have hkk : ¬ k = "GENERAL_PART" := by
              rcases layerKey_cases p k hlk with h4 | h4 | h4 | h4 <;> simp [h4]
            rw [hasKeyB, dictFind_dictSet_ne d0 k "GENERAL_PART" v hkk]
            exact hacc d0 hd0

/-- Claim C3 (confirmed): a CDR produced by the assembler never carries
`GENERAL_PART`, so whenever the `link` criterion is configured non-empty
the filter's first lookup raises `KeyError` and the record is rejected,
whatever else the CDR or the other criteria contain. -/
theorem filter_c3_link_rejects (frags : List Frag) (cdrs : List Dict)
    (crit : FilterCriteria) (cdr : Dict)
    (hp : parse_cdr_rec frags = Except.ok cdrs) (hm : cdr ∈ cdrs)
    (hl : truthyI crit.link = true) :
    filter_cdr crit cdr = Except.ok false := by
  have hgp : hasKeyB cdr "GENERAL_PART" = false :=
    parseLoop_no_general_part frags [] cdrs hp (by simp) cdr hm
  have hfind : dictFind cdr "GENERAL_PART" = none := by
    cases h2 : dictFind cdr "GENERAL_PART" with
    | none => rfl
    | some v => rw [hasKeyB, h2] at hgp; simp at hgp
  obtain ⟨l, hlink, hne⟩ : ∃ l, crit.link = some l ∧ l.isEmpty = false := by
    cases hcl : crit.link with
    | none => rw [hcl, truthyI] at hl; cases hl
    | some l =>
      refine ⟨l, rfl, ?_⟩
      rw [hcl, truthyI] at hl
      simpa using hl
  unfold filter_cdr
  rw [hl]
  simp only [Bool.true_or, Bool.not_true, Bool.false_eq_true, if_false]
  unfold tryFilters evalLink
  rw [hlink]
  simp [hne, dictGet, hfind]

/-- A boundary-only fragment line used to exercise the link filter. -/
def fragsC3 : List Frag := [[("DIR", JVal.num 1), ("TS", JVal.num 0)]]

/-- The single CDR assembled from `fragsC3`. -/
def cdrC3 : Dict := [("TS", JVal.str "1970.01.01 00:00:00.000000"), ("DIR", JVal.num 1)]

/-- A configuration with the `link` criterion configured non-empty. -/
def critC3 : FilterCriteria := ⟨some [5], some [1], some ["0"], some ["0"]⟩

theorem filter_c3_witness : filter_cdr critC3 cdrC3 = Except.ok false :=
  filter_c3_link_rejects fragsC3 [cdrC3] critC3 cdrC3 rfl (by simp) rfl

/-! ## Record Assembler refinement (claim C8) -/

/-- Spec-side: the first of the four layer keys present in a fragment,
in the claim's fixed priority order. -/
def specLayerKey (p : Frag) : Option String :=
  if hasKeyB p "MTP" then some "MTP"
  else if hasKeyB p "SCCP" then some "SCCP"
  else if hasKeyB p "TCAP" then some "TCAP"
  else if hasKeyB p "SMS" then some "SMS"
  else none

theorem specLayerKey_eq (p : Frag) : specLayerKey p = layerKey p := rfl

/-- Spec-side: fold one non-boundary fragment into the open CDR: the
first matching layer key overwrites that field; a fragment with none of
the keys is ignored.  (The default is unreachable: the key is present.) -/
def applyLayer (d : Dict) (p : Frag) : Dict :=
  match specLayerKey p with
  | some k => dictSet d k ((dictFind p k).getD (JVal.num 0))
  | none => d

/-- Does the seed timestamp of a boundary fragment render successfully?
(The spec treats a numeric `TS` on boundary fragments as an upstream
precondition, section 9.) -/
def seedOk (p : Frag) : Bool :=
  match seedTs p with
  | Except.ok _ => true
  | Except.error _ => false

/-- Spec-side seed of a boundary fragment, totalized with defaults that
the refinement theorem's hypotheses make unreachable. -/
def seedSpec (p : Frag) : Dict :=
  [("TS", JVal.str ((seedTs p).toOption.getD "")),
   ("DIR", (dictFind p "DIR").getD (JVal.num 0))]

/-- Spec-side assembler, written from the claim's words: one CDR per
boundary fragment in order of appearance, each folding in the
non-boundary fragments that follow it up to the next boundary. -/
def assembleSpec : List Frag → List Dict
  | [] => []
  | p :: ps =>
    (List.foldl applyLayer (seedSpec p) (ps.takeWhile (fun q => !hasDirB q)))
      :: assembleSpec (ps.dropWhile (fun q => !hasDirB q))
termination_by l => l.length
decreasing_by
  simp only [List.length_cons]
  exact Nat.lt_succ_of_le (length_dropWhile_le_local _ ps)

/-- The head of `dropWhile` fails the predicate, when there is one. -/
theorem dropWhile_head_not {α : Type} (p : α → Bool) (l : List α) :
    l.dropWhile p = [] ∨ ∃ x xs, l.dropWhile p = x :: xs ∧ p x = false := by
  induction l with
  | nil => exact Or.inl rfl
  | cons a t ih =>
    cases hpa : p a
    · exact Or.inr ⟨a, t, by simp [List.dropWhile_cons, hpa], hpa⟩
    · simpa [List.dropWhile_cons, hpa] using ih

/-- Members of `dropWhile` are members of the list. -/
theorem mem_of_mem_dropWhile {α : Type} (p : α → Bool) (l : List α) (x : α)
    (h : x ∈ l.dropWhile p) : x ∈ l := by
  induction l with
  | nil => simpa [List.dropWhile] using h
  | cons a t ih =>
    cases hpa : p a
    · rw [List.dropWhile_cons, hpa] at h
      simpa using h
    · rw [List.dropWhile_cons, hpa] at h
      simp only [if_pos] at h
      exact List.mem_cons_of_mem a (ih h)

/-- Mutating the current record mutates the last element of the list. -/
theorem setLast_append (acc : List Dict) (d : Dict) (k : String) (v : JVal) :
    setLast (acc ++ [d]) k v = Except.ok (acc ++ [dictSet d k v]) := by
  induction acc with
  | nil => rfl
  | cons a rest ih =>
    cases rest with
    | nil => rfl
    | cons b rest2 =>
      simp only [List.cons_append] at ih ⊢
      simp [setLast, ih]

/-- Running the loop over a boundary-free segment folds the segment into
the last (current) record and touches nothing else. -/
theorem parseLoop_noDir (rest : List Frag) (body : List Frag) :
    ∀ (acc : List Dict) (d : Dict), (∀ q ∈ body, hasDirB q = false) →
      parseLoop (body ++ rest) (acc ++ [d]) =
        parseLoop rest (acc ++ [List.foldl applyLayer d body]) := by
  induction body with
  | nil => intro acc d _; simp
  | cons q t ih =>
    intro acc d hq
    have hqd : hasDirB q = false := hq q (List.mem_cons_self q t)
    have ht : ∀ r ∈ t, hasDirB r = false := fun r hr => hq r (List.mem_cons_of_mem q hr)
    have hfold : List.foldl applyLayer d (q :: t) = List.foldl applyLayer (applyLayer d q) t := rfl
    rw [List.cons_append, hfold]
    cases hlk : layerKey q with
    | none =>
      have ha : applyLayer d q = d := by
        simp only [applyLayer, specLayerKey_eq, hlk]
      rw [ha]
      have step : parseLoop (q :: (t ++ rest)) (acc ++ [d]) =
          parseLoop (t ++ rest) (acc ++ [d]) := by
        simp only [parseLoop, hasDirB_false_find q hqd, hlk]
      rw [step]
      exact ih acc d ht
    | some k =>
      obtain ⟨v, hv⟩ := layerKey_find q k hlk
      have ha : applyLayer d q = dictSet d k v := by
        simp only [applyLayer, specLayerKey_eq, hlk, hv, Option.getD_some]
      rw [ha]
      have step : parseLoop (q :: (t ++ rest)) (acc ++ [d]) =
          parseLoop (t ++ rest) (acc ++ [dictSet d k v]) := by
        simp only [parseLoop, hasDirB_false_find q hqd, hlk, dictGet, hv, setLast_append]
      rw [step]
      exact ih acc (dictSet d k v) ht

/-- The loop refines the spec-side assembler on inputs that open with a
boundary fragment whose timestamps all render. -/
theorem parseLoop_assembleSpec :
    ∀ (n : Nat) (frags : List Frag) (acc : List Dict),
      frags.length ≤ n →
      (∀ q ∈ frags, hasDirB q = true → seedOk q = true) →
      (frags = [] ∨ ∃ p ps, frags = p :: ps ∧ hasDirB p = true) →
      parseLoop frags acc = Except.ok (acc ++ assembleSpec frags) := by
  intro n
  induction n with
  | zero =>
    intro frags acc hlen _ _
    have he : frags = [] := List.length_eq_zero.mp (Nat.le_zero.mp hlen)
    subst he
    simp [parseLoop, assembleSpec]
  | succ m ih =>
    intro frags acc hlen hts hhead
    rcases hhead with rfl | ⟨p, ps, rfl, hd⟩
    · simp [parseLoop, assembleSpec]
    · have hd2 : (dictFind p "DIR").isSome = true := by rw [hasDirB] at hd; exact hd
      obtain ⟨dv, hdv⟩ := Option.isSome_iff_exists.mp hd2
      have hsp : seedOk p = true := hts p (List.mem_cons_self p ps) hd
      obtain ⟨s, hs⟩ : ∃ s, seedTs p = Except.ok s := by
        revert hsp
        unfold seedOk
        cases seedTs p <;> simp
      have hseed : seedSpec p = [("TS", JVal.str s), ("DIR", dv)] := by
        unfold seedSpec
        rw [hs, hdv]
        rfl
      set body := ps.takeWhile (fun q => !hasDirB q) with hbody
      set rest := ps.dropWhile (fun q => !hasDirB q) with hrest
      have hsplit : body ++ rest = ps := by
        rw [hbody, hrest]
        exact List.takeWhile_append_dropWhile _ ps
      have hbodyNoDir : ∀ q ∈ body, hasDirB q = false := by
        intro q hqb
        rw [hbody] at hqb
        have := List.mem_takeWhile_imp hqb
        simpa using this
      have step1 : parseLoop (p :: ps) acc =
          parseLoop ps (acc ++ [[("TS", JVal.str s), ("DIR", dv)]]) := by
        simp only [parseLoop, hdv, hs]
      have step2 : parseLoop ps (acc ++ [[("TS", JVal.str s), ("DIR", dv)]]) =
          parseLoop rest
            (acc ++ [List.foldl applyLayer [("TS", JVal.str s), ("DIR", dv)] body]) := by
        conv_lhs => rw [← hsplit]
        exact parseLoop_noDir rest body acc _ hbodyNoDir
      have hrestlen : rest.length ≤ m := by
        have hr1 : rest.length ≤ ps.length := by
          rw [hrest]
          exact length_dropWhile_le_local _ ps
        have hr2 : ps.length + 1 ≤ m + 1 := by simpa using hlen
        omega
      have hrestts : ∀ q ∈ rest, hasDirB q = true → seedOk q = true := by
        intro q hqr
        have hqps : q ∈ ps := mem_of_mem_dropWhile _ ps q (by rw [← hrest]; exact hqr)
        exact hts q (List.mem_cons_of_mem p hqps)
      have hresthead : rest = [] ∨ ∃ p2 ps2, rest = p2 :: ps2 ∧ hasDirB p2 = true := by
        rcases dropWhile_head_not (fun q => !hasDirB q) ps with he | ⟨x, xs, hx, hpx⟩
        · exact Or.inl (by rw [hrest]; exact he)
        · refine Or.inr ⟨x, xs, by rw [hrest]; exact hx, ?_⟩
          simpa using hpx
      have step3 := ih rest
        (acc ++ [List.foldl applyLayer [("TS", JVal.str s), ("DIR", dv)] body])
        hrestlen hrestts hresthead
      have hassm : assembleSpec (p :: ps) =
          (List.foldl applyLayer (seedSpec p) body) :: assembleSpec rest := by
        simp only [assembleSpec]
      rw [step1, step2, step3, hassm, hseed]
      simp

/-- Claim C8 (confirmed): on a fragment array whose first fragment is a
boundary fragment (and whose boundary timestamps render, the spec's
documented upstream precondition), the assembler equals the spec-side
assembler: CDRs in boundary order, each non-boundary fragment
contributing only its first matching layer key (`MTP`, `SCCP`, `TCAP`,
`SMS` in that priority), overwriting earlier values of the same kind,
and fragments with none of the keys silently ignored. -/
theorem assembler_c8_refines (p : Frag) (ps : List Frag)
    (hd : hasDirB p = true)
    (hts : ∀ q ∈ p :: ps, hasDirB q = true → seedOk q = true) :
    parse_cdr_rec (p :: ps) = Except.ok (assembleSpec (p :: ps)) := by
  unfold parse_cdr_rec
  have h := parseLoop_assembleSpec (p :: ps).length (p :: ps) [] le_rfl hts
    (Or.inr ⟨p, ps, rfl, hd⟩)
  simpa using h

/-- A fragment array exercising priority, overwrite and ignore cases. -/
def fragsC8 : List Frag :=
  [[("DIR", JVal.num 1), ("TS", JVal.num 0)],
   [("SCCP", JVal.obj [("A", JVal.str "1")]), ("SMS", JVal.obj [])],
   [("X", JVal.num 0)],
   [("SCCP", JVal.obj [("A", JVal.str "2")])],
   [("DIR", JVal.num 2), ("TS", JVal.num 60)]]

theorem assembler_c8_witness :
    parse_cdr_rec fragsC8 = Except.ok (assembleSpec fragsC8) :=
  assembler_c8_refines
    [("DIR", JVal.num 1), ("TS", JVal.num 0)]
    [[("SCCP", JVal.obj [("A", JVal.str "1")]), ("SMS", JVal.obj [])],
     [("X", JVal.num 0)],
     [("SCCP", JVal.obj [("A", JVal.str "2")])],
     [("DIR", JVal.num 2), ("TS", JVal.num 60)]]
    rfl (by decide)

/-! ## Export Projector (claim C9) -/

/-- Spec-side nested field lookup: present only when the outer key is
bound to a mapping that binds the inner key. -/
def fieldPath (c : Dict) (k1 k2 : String) : Option JVal :=
  match dictFind c k1 with
  | some (JVal.obj d) => dictFind d k2
  | _ => none

/-- Spec-side row: emitted iff all nine required nested fields are
present; otherwise the record contributes nothing. -/
def specRow (c : Dict) : Option (List JVal) :=
  match dictFind c "TS", fieldPath c "TCAP" "MAP", fieldPath c "TCAP" "DST",
        fieldPath c "TCAP" "SRC", fieldPath c "SCCP" "A", fieldPath c "SCCP" "B",
        fieldPath c "SMS" "A", fieldPath c "SMS" "B", fieldPath c "SMS" "IMSI_A" with
  | some ts, some m, some dd, some sr, some a, some b, some sa, some sb, some im =>
    some [ts, m, dd, sr, a, b, sa, sb, im]
  | _, _, _, _, _, _, _, _, _ => none

/-- A layer value, when present, is a mapping (the spec's data model,
section 3, declares `MTP`/`SCCP`/`TCAP`/`SMS` to be nested mappings). -/
def okLayer : Option JVal → Bool
  | none => true
  | some (JVal.obj _) => true
  | some _ => false

/-- All three layer values the projector touches obey the data model. -/
def layersObjs (c : Dict) : Bool :=
  okLayer (dictFind c "TCAP") && okLayer (dictFind c "SCCP") && okLayer (dictFind c "SMS")

/-- On data-model-conforming CDRs the projector's row either succeeds
with the spec row or fails with `KeyError`. -/
theorem projectRow_spec (c : Dict) (h : layersObjs c = true) :
    projectRow c =
      (match specRow c with
       | some r => Except.ok r
       | none => Except.error PyErr.keyError) := by
  unfold layersObjs at h
  rw [Bool.and_eq_true, Bool.and_eq_true] at h
  obtain ⟨⟨hT, hS⟩, hM⟩ := h
  cases hts : dictFind c "TS" with
  | none => simp [projectRow, specRow, fieldPath, dictGet, jGetKey, hts]
  | some ts =>
  cases htc : dictFind c "TCAP" with
  | none => simp [projectRow, specRow, fieldPath, dictGet, jGetKey, hts, htc]
  | some tv =>
  rw [htc] at hT
  cases tv with
  | str s => simp [okLayer] at hT
  | num n => simp [okLayer] at hT
  | obj td =>
  cases h1 : dictFind td "MAP" with
  | none => simp [projectRow, specRow, fieldPath, dictGet, jGetKey, hts, htc, h1]
  | some m =>
  cases h2 : dictFind td "DST" with
  | none => simp [projectRow, specRow, fieldPath, dictGet, jGetKey, hts, htc, h1, h2]
  | some dd =>
  cases h3 : dictFind td "SRC" with
  | none => simp [projectRow, specRow, fieldPath, dictGet, jGetKey, hts, htc, h1, h2, h3]
  | some sr =>
  cases hsc : dictFind c "SCCP" with
  | none => simp [projectRow, specRow, fieldPath, dictGet, jGetKey, hts, htc, h1, h2, h3, hsc]
  | some sv =>
  rw [hsc] at hS
  cases sv with
  | str s => simp [okLayer] at hS
  | num n => simp [okLayer] at hS
  | obj sd =>
  cases h4 : dictFind sd "A" with
  | none => simp [projectRow, specRow, fieldPath, dictGet, jGetKey, hts, htc, h1, h2, h3, hsc, h4]
  | some a =>
  cases h5 : dictFind sd "B" with
  | none => simp [projectRow, specRow, fieldPath, dictGet, jGetKey, hts, htc, h1, h2, h3, hsc, h4, h5]
  | some b =>
  cases hsm : dictFind c "SMS" with
  | none =>
    simp [projectRow, specRow, fieldPath, dictGet, jGetKey, hts, htc, h1, h2, h3, hsc, h4, h5, hsm]
  | some mv =>
  rw [hsm] at hM
  cases mv with
  | str s => simp [okLayer] at hM
  | num n => simp [okLayer] at hM
  | obj md =>
  cases h6 : dictFind md "A" with
  | none =>
    simp [projectRow, specRow, fieldPath, dictGet, jGetKey, hts, htc, h1, h2, h3, hsc, h4, h5, hsm,
      h6]
  | some sa =>
  cases h7 : dictFind md "B" with
  | none =>
    simp [projectRow, specRow, fieldPath, dictGet, jGetKey, hts, htc, h1, h2, h3, hsc, h4, h5, hsm,
      h6, h7]
  | some sb =>
  cases h8 : dictFind md "IMSI_A" with
  | none =>
    simp [projectRow, specRow, fieldPath, dictGet, jGetKey, hts, htc, h1, h2, h3, hsc, h4, h5, hsm,
      h6, h7, h8]
  | some im =>
    simp [projectRow, specRow, fieldPath, dictGet, jGetKey, hts, htc, h1, h2, h3, hsc, h4, h5, hsm,
      h6, h7, h8]

/-- The emitted rows are exactly the spec rows of the CDRs that have all
nine fields, in input order. -/
theorem save_to_file_spec (cdrs : List Dict) (h : ∀ c ∈ cdrs, layersObjs c = true) :
    save_to_file cdrs = Except.ok (cdrs.filterMap specRow) := by
  induction cdrs with
  | nil => rfl
  | cons c cs ih =>
    have hc := h c (List.mem_cons_self c cs)
    have hcs : ∀ d ∈ cs, layersObjs d = true := fun d hd => h d (List.mem_cons_of_mem c hd)
    have hp := projectRow_spec c hc
    cases hs : specRow c with
    | some r =>
      rw [hs] at hp
      simp only [save_to_file, hp, ih hcs, List.filterMap_cons, hs]
    | none =>
      rw [hs] at hp
      simp only [save_to_file, hp, ih hcs, List.filterMap_cons, hs]

/-- Claim C9 (confirmed): on CDRs conforming to the spec's data model
the export emits one row per CDR exactly when all nine nested fields are
present, silently drops a CDR missing any field, preserves order, and a
CDR lacking `TCAP` never contributes a row. -/
theorem export_c9_rows (cdrs : List Dict) (h : ∀ c ∈ cdrs, layersObjs c = true) :
    save_to_file cdrs = Except.ok (cdrs.filterMap specRow) ∧
    (∀ c ∈ cdrs, hasKeyB c "TCAP" = false → specRow c = none) := by
  refine ⟨save_to_file_spec cdrs h, ?_⟩
  intro c _ hc
  have hfind : dictFind c "TCAP" = none := by
    cases h2 : dictFind c "TCAP" with
    | none => rfl
    | some v => rw [hasKeyB, h2] at hc; simp at hc
  have hfp : fieldPath c "TCAP" "MAP" = none := by
    unfold fieldPath
    rw [hfind]
  unfold specRow
  rw [hfp]
  cases dictFind c "TS" <;> rfl

/-- A fully populated CDR together with one lacking `TCAP`. -/
def cdrsC9 : List Dict :=
  [[("TS", JVal.str "t"),
    ("TCAP", JVal.obj [("MAP", JVal.num 5), ("DST", JVal.str "d"), ("SRC", JVal.str "s")]),
    ("SCCP", JVal.obj [("A", JVal.str "a"), ("B", JVal.str "b")]),
    ("SMS", JVal.obj [("A", JVal.str "x"), ("B", JVal.str "y"), ("IMSI_A", JVal.str "i")])],
   [("TS", JVal.str "t"), ("DIR", JVal.num 1)]]

theorem export_c9_witness : save_to_file cdrsC9 = Except.ok (cdrsC9.filterMap specRow) :=
  (export_c9_rows cdrsC9 (by decide)).1
